import Mathlib

/-!
Verification of the blox2 bytecode compiler and virtual machine.

The Rust sources (`scanner.rs`, `token.rs`, `chunk.rs`, `arena.rs`,
`compiler.rs`, `vm.rs`) are embedded shallowly: every mutating method
becomes a state-passing Lean function, machine `usize` values become
`Nat`, `f64` numbers become exact rationals (exact for the integer-valued literals
exercised here), and every Rust `panic!`/`expect` path is made total by
returning an `Option`/`crash` outcome or, where the panic is unreachable
for the inputs of interest, by an identity fallback that is noted next to
the definition.  Loops are given explicit fuel; with fuel at least the
number of iterations the Rust loop performs, the Lean function computes
the same result.

The repository ships several growth snapshots; `value.rs` under `src/` is
an earlier `Rc`-based snapshot that does not match the index-addressed
`Value`/`Obj` used by `vm.rs` and `compiler.rs`, and `vm.rs`'s dispatch
lacks the `GetLocal`/`SetLocal`/`Jump`/`JumpIfFalse` arms its own `Op`
type and compiler require.  Those missing pieces are modelled from the
spec and are marked `Modelled from the spec:` at their definitions.
-/

/-- Token kinds, from `token.rs` (`TokenType`).  Keyword constructors are
prefixed with `k` because several keyword names are Lean keywords. -/
inductive TokenType where
  | leftParen | rightParen | leftBrace | rightBrace
  | comma | dot | minus | plus | semiColon | colon | slash | star
  | bang | bangEqual | equal | equalEqual
  | greater | greaterEqual | less | lessEqual
  | identifier | str | number
  | kAnd | kClass | kElse | kFalse | kFun | kFor | kIf | kNil | kOr
  | kPrint | kReturn | kSuper | kThis | kTrue | kVar | kVal
  | kSwitch | kCase | kDefault | kWhile
  | error | eof | noneT
  deriving DecidableEq, Repr

/-- One lexical unit, from `token.rs` (`Token`). -/
structure Token where
  typ : TokenType
  start : Nat
  length : Nat
  line : Nat
  message : String
  lexeme : String
  deriving DecidableEq, Repr

/-- `Token::empty()`. -/
def Token.empty : Token :=
  { typ := .noneT, start := 0, length := 0, line := 0, message := "", lexeme := "" }

/-- Which of the two arena buffers is live, from `arena.rs` (`Heap`). -/
inductive Heap where
  | A | B
  deriving DecidableEq, Repr

/-- `Heap::next`. -/
def Heap.next : Heap → Heap
  | .A => .B
  | .B => .A

/-- Double-buffered append-only heap, from `arena.rs` (`Arena<T>`). -/
structure Arena (T : Type) where
  a : List T
  b : List T
  current : Heap

/-- `Arena::new`. -/
def Arena.new {T : Type} : Arena T := ⟨[], [], .A⟩

/-- The currently live buffer (the one `get`, `len` and `push` address). -/
def Arena.live {T : Type} (ar : Arena T) : List T :=
  match ar.current with
  | .A => ar.a
  | .B => ar.b

/-- `Arena::get`; the Rust out-of-bounds index panic becomes `none`. -/
def Arena.get {T : Type} (ar : Arena T) (index : Nat) : Option T :=
  match ar.current with
  | .A => ar.a.get? index
  | .B => ar.b.get? index

/-- `Arena::len`. -/
def Arena.len {T : Type} (ar : Arena T) : Nat :=
  match ar.current with
  | .A => ar.a.length
  | .B => ar.b.length

/-- `Arena::push` (returns the updated arena; Rust's `push` returns `()`
and callers read the new index as `len() - 1`). -/
def Arena.push {T : Type} (ar : Arena T) (item : T) : Arena T :=
  match ar.current with
  | .A => { ar with a := ar.a ++ [item] }
  | .B => { ar with b := ar.b ++ [item] }

/-- `Arena::clean`: copy the live buffer onto the end of the other one,
empty the live buffer and flip the selector (dead code in the sources). -/
def Arena.clean {T : Type} (ar : Arena T) : Arena T :=
  match ar.current with
  | .A => { a := [], b := ar.b ++ ar.a, current := .B }
  | .B => { a := ar.a ++ ar.b, b := [], current := .A }

/-- Bytecode instructions, from `chunk.rs` (`Op`). -/
inductive Op where
  | constant (index : Nat)
  | nil | opTrue | opFalse | pop
  | defineGlobal (index : Nat)
  | getGlobal (index : Nat)
  | setGlobal (index : Nat)
  | getLocal (slot : Nat)
  | setLocal (slot : Nat)
  | equal | greater | less | add | subtract | multiply | divide
  | not | negate | print
  | jumpIfFalse (target : Nat)
  | jump (target : Nat)
  | ret
  deriving DecidableEq, Repr

/-- Greatest common divisor with explicit fuel (so that it reduces inside
the kernel); fuel `x + 1` always suffices because the first argument
strictly decreases. -/
def gcdF : Nat → Nat → Nat → Nat
  | 0, _, y => y
  | f + 1, x, y => if x = 0 then y else gcdF f (y % x) x

/-- Exact rational numbers in lowest terms, used to model `f64`.  On the
integer-valued literals and `+`/`-`/`*` arithmetic the claims exercise,
`f64` is exact and agrees with exact rational arithmetic; this type keeps
every operation kernel-computable. -/
structure Ratl where
  num : Int
  den : Nat
  deriving DecidableEq, Repr

/-- Normalize a fraction to lowest terms (zero denominator, unreachable
for the embedded programs, is totalised to 0). -/
def Ratl.norm (n : Int) (d : Nat) : Ratl :=
  if d = 0 then ⟨0, 1⟩
  else
    let g := gcdF (n.natAbs + 1) n.natAbs d
    ⟨n / (g : Int), d / g⟩

instance : OfNat Ratl n := ⟨⟨(n : Int), 1⟩⟩

/-- Rational addition. -/
def Ratl.add (a b : Ratl) : Ratl :=
  Ratl.norm (a.num * b.den + b.num * a.den) (a.den * b.den)

/-- Rational subtraction. -/
def Ratl.sub (a b : Ratl) : Ratl :=
  Ratl.norm (a.num * b.den - b.num * a.den) (a.den * b.den)

/-- Rational multiplication. -/
def Ratl.mul (a b : Ratl) : Ratl :=
  Ratl.norm (a.num * b.num) (a.den * b.den)

/-- Rational division (division by zero, where `f64` would give an
infinity no claim exercises, is totalised to 0). -/
def Ratl.div (a b : Ratl) : Ratl :=
  let m : Int := (a.den : Int) * b.num
  if m = 0 then ⟨0, 1⟩ else Ratl.norm (a.num * b.den * m.sign) m.natAbs

/-- Rational negation. -/
def Ratl.neg (a : Ratl) : Ratl :=
  ⟨-a.num, a.den⟩

/-- Boolean strict order on rationals. -/
def Ratl.blt (a b : Ratl) : Bool :=
  a.num * (b.den : Int) < b.num * (a.den : Int)

/-- Boolean reversed strict order on rationals. -/
def Ratl.bgt (a b : Ratl) : Bool :=
  b.blt a

/-- Modelled from the spec: the runtime `Value` of the most complete
snapshot (`src/value.rs` is an earlier `Rc`-based snapshot; `vm.rs` and
`compiler.rs` use the index-addressed form `{Nil, Bool, Number(f64),
Obj(arena index)}` described in the spec's data model).  `f64` is
modelled as the exact rational type `Ratl`. -/
inductive Value where
  | nil
  | bool (b : Bool)
  | number (n : Ratl)
  | obj (index : Nat)
  deriving DecidableEq, Repr

/-- Modelled from the spec: the heap payload `Obj` of the most complete
snapshot, `Str(text)` or `Ident(text)` per the spec's data model. -/
inductive Obj where
  | str (text : String)
  | ident (text : String)
  deriving DecidableEq, Repr

/-- Modelled from the spec: `Obj::lexeme` returns the carried text
(`vm.rs` calls it on interned identifiers). -/
def Obj.lexeme : Obj → String
  | .str t => t
  | .ident t => t

/-- `Value::is_number`. -/
def Value.is_number : Value → Bool
  | .number _ => true
  | _ => false

/-- `Value::is_falsey`: `Nil` and `Bool(false)` are falsey. -/
def Value.is_falsey : Value → Bool
  | .nil => true
  | .bool false => true
  | _ => false

/-- `Value::as_obj` (used by `vm.rs` on identifier constants); `none`
models the panic on a non-object value. -/
def Value.as_obj : Value → Option Nat
  | .obj index => some index
  | _ => none

/-- Bytecode container, from `chunk.rs` (`Chunk`). -/
structure Chunk where
  code : List Op
  lines : List Nat
  constants : List Value
  deriving DecidableEq, Repr

/-- `Chunk::new`. -/
def Chunk.new : Chunk := ⟨[], [], []⟩

/-- `Chunk::write`: append the op and update the line table exactly as the
source does (`if line >= lines.len() { lines.push(1) } else
{ lines[line - 1] += 1 }`). -/
def Chunk.write (c : Chunk) (byte : Op) (line : Nat) : Chunk :=
  let code := c.code ++ [byte]
  if c.lines.length ≤ line then
    { c with code := code, lines := c.lines ++ [1] }
  else
    { c with code := code,
             lines := c.lines.set (line - 1) (c.lines.getD (line - 1) 0 + 1) }

/-- `Chunk::add_constant`: append and return the new constant's index. -/
def Chunk.add_constant (c : Chunk) (constant : Value) : Chunk × Nat :=
  ({ c with constants := c.constants ++ [constant] }, c.constants.length)

/-- `Chunk::read_op`; the Rust out-of-bounds panic becomes `none`. -/
def Chunk.read_op (c : Chunk) (index : Nat) : Option Op :=
  c.code.get? index

/-- `Chunk::read_constant`; the Rust out-of-bounds panic becomes `none`. -/
def Chunk.read_constant (c : Chunk) (index : Nat) : Option Value :=
  c.constants.get? index

/-- `Chunk::code_len`. -/
def Chunk.code_len (c : Chunk) : Nat :=
  c.code.length

/-- The scanning loop of `Chunk::get_line`
(`while line_counter < offset && current_index < lines.len()`), with fuel;
`lines.length` iterations always suffice because `current_index` grows by
one per iteration. -/
def Chunk.getLineLoop : Nat → List Nat → Nat → Nat → Nat → Nat
  | 0, _, _, currentIndex, _ => currentIndex
  | f + 1, lines, lineCounter, currentIndex, offset =>
    if lineCounter < offset ∧ currentIndex < lines.length then
      Chunk.getLineLoop f lines (lineCounter + lines.getD currentIndex 0)
        (currentIndex + 1) offset
    else
      currentIndex

/-- `Chunk::get_line`; `lines[0]` on an empty table (a Rust panic) is
totalised to `0`. -/
def Chunk.get_line (c : Chunk) (offset : Nat) : Nat :=
  Chunk.getLineLoop c.lines.length c.lines (c.lines.getD 0 0) 1 offset

/-- Scanner state, from `scanner.rs` (`Scanner`): the source as a
random-accessible character sequence plus `start`, `current`, `line`. -/
structure Scanner where
  source : List Char
  start : Nat
  current : Nat
  line : Nat
  deriving DecidableEq, Repr

/-- `Scanner::new`. -/
def Scanner.new (source : String) : Scanner :=
  { source := source.toList, start := 0, current := 0, line := 1 }

/-- Character at an absolute index; out-of-bounds reads (Rust index
panics, reachable only on inputs none of the claims use) are totalised to
the NUL character. -/
def Scanner.charAt (s : Scanner) (index : Nat) : Char :=
  s.source.getD index (Char.ofNat 0)

/-- `Scanner::is_at_end`. -/
def Scanner.is_at_end (s : Scanner) : Bool :=
  s.source.length ≤ s.current

/-- `Scanner::peek`. -/
def Scanner.peek (s : Scanner) : Char :=
  s.charAt s.current

/-- `Scanner::peek_next`. -/
def Scanner.peek_next (s : Scanner) : Char :=
  if s.is_at_end then Char.ofNat 0 else s.charAt (s.current + 1)

/-- `Scanner::advance`: return the current character and step past it. -/
def Scanner.advanceC (s : Scanner) : Char × Scanner :=
  (s.charAt s.current, { s with current := s.current + 1 })

/-- `Scanner::check`: conditionally consume an expected character. -/
def Scanner.checkC (s : Scanner) (expected : Char) : Bool × Scanner :=
  if s.is_at_end then (false, s)
  else if s.charAt s.current ≠ expected then (false, s)
  else (true, { s with current := s.current + 1 })

/-- `Scanner::check_comment`: consume a leading `//` when present. -/
def Scanner.check_comment (s : Scanner) : Bool × Scanner :=
  if s.is_at_end then (false, s)
  else if s.peek ≠ '/' then (false, s)
  else if s.peek_next ≠ '/' then (false, s)
  else (true, { s with current := s.current + 2 })

/-- The inner loop of `Scanner::skip_comments`
(`while peek() != '\n' && !is_at_end { advance }`), with fuel. -/
def Scanner.commentBody : Nat → Scanner → Scanner
  | 0, s => s
  | f + 1, s =>
    if s.peek ≠ '\n' ∧ ¬ s.is_at_end then
      Scanner.commentBody f { s with current := s.current + 1 }
    else s

/-- `Scanner::skip_comments` (`while check_comment { ... }`), with fuel. -/
def Scanner.skip_comments : Nat → Scanner → Scanner
  | 0, s => s
  | f + 1, s =>
    match s.check_comment with
    | (false, s1) => s1
    | (true, s1) => Scanner.skip_comments f (Scanner.commentBody (s1.source.length + 1) s1)

/-- `Scanner::skip_whitespace_and_comments`, with fuel. -/
def Scanner.skipWS : Nat → Scanner → Scanner
  | 0, s => s
  | f + 1, s =>
    if s.is_at_end then s
    else
      match s.peek with
      | '\t' | ' ' | '\r' => Scanner.skipWS f { s with current := s.current + 1 }
      | '\n' => Scanner.skipWS f { s with current := s.current + 1, line := s.line + 1 }
      | '/' =>
        if s.peek_next ≠ '/' then s
        else Scanner.skipWS f (Scanner.skip_comments (s.source.length + 1) s)
      | _ => s

/-- `Scanner::lexeme`: the slice `[start, start + length)` as a string. -/
def Scanner.lexeme (s : Scanner) (start length : Nat) : String :=
  String.mk ((s.source.drop start).take length)

/-- `Scanner::make_token` (string tokens exclude the closing quote from
the recorded length). -/
def Scanner.make_token (s : Scanner) (typ : TokenType) : Token :=
  let length := match typ with
    | .str => s.current - s.start - 1
    | _ => s.current - s.start
  { typ := typ, start := s.start, length := length, line := s.line,
    message := "", lexeme := s.lexeme s.start length }

/-- `Scanner::error_token`. -/
def Scanner.error_token (s : Scanner) (message : String) : Token :=
  let length := s.current - s.start
  { typ := .error, start := s.start, length := length, line := s.line,
    message := message, lexeme := s.lexeme s.start length }

/-- `Scanner::check_keyword`: compare `source[start+1..current]` against
the keyword's remaining letters. -/
def Scanner.check_keyword (s : Scanner) (rest : List Char) (typ : TokenType) : TokenType :=
  if s.current - s.start = rest.length + 1 ∧
      (s.source.drop (s.start + 1)).take (s.current - s.start - 1) = rest then
    typ
  else .identifier

/-- `Scanner::identifier_type`: the first/second-letter keyword dispatch. -/
def Scanner.identifier_type (s : Scanner) : TokenType :=
  match s.charAt s.start with
  | 'a' => s.check_keyword "nd".toList .kAnd
  | 'e' => s.check_keyword "lse".toList .kElse
  | 'i' => s.check_keyword "f".toList .kIf
  | 'n' => s.check_keyword "il".toList .kNil
  | 'o' => s.check_keyword "r".toList .kOr
  | 'p' => s.check_keyword "rint".toList .kPrint
  | 'r' => s.check_keyword "eturn".toList .kReturn
  | 'w' => s.check_keyword "hile".toList .kWhile
  | 'd' => s.check_keyword "efault".toList .kDefault
  | 'c' =>
    if s.current - s.start = 1 then .identifier
    else match s.charAt (s.start + 1) with
      | 'a' => s.check_keyword "ase".toList .kCase
      | 'l' => s.check_keyword "lass".toList .kClass
      | _ => .identifier
  | 's' =>
    if s.current - s.start = 1 then .identifier
    else match s.charAt (s.start + 1) with
      | 'w' => s.check_keyword "witch".toList .kSwitch
      | 'u' => s.check_keyword "uper".toList .kSuper
      | _ => .identifier
  | 'v' =>
    if s.current - s.start = 1 ∨ s.charAt (s.start + 1) ≠ 'a' ∨
        s.current - s.start = 2 then .identifier
    else if s.charAt (s.start + 2) = 'r' ∧ s.current - s.start = 3 then .kVar
    else if s.charAt (s.start + 2) = 'l' ∧ s.current - s.start = 3 then .kVal
    else .identifier
  | 'f' =>
    if s.current - s.start = 1 then .identifier
    else match s.charAt (s.start + 1) with
      | 'a' => s.check_keyword "alse".toList .kFalse
      | 'o' => s.check_keyword "or".toList .kFor
      | 'u' => s.check_keyword "un".toList .kFun
      | _ => .identifier
  | 't' =>
    if s.current - s.start = 1 then .identifier
    else match s.charAt (s.start + 1) with
      | 'h' => s.check_keyword "his".toList .kThis
      | 'r' => s.check_keyword "rue".toList .kTrue
      | _ => .identifier
  | _ => .identifier

/-- The alphanumeric-run loop of `Scanner::identifier_token`, with fuel
(Rust `is_alphanumeric` coincides with `Char.isAlphanum` on the ASCII
sources used here). -/
def Scanner.identBody : Nat → Scanner → Scanner
  | 0, s => s
  | f + 1, s =>
    if ¬ s.is_at_end ∧ s.peek.isAlphanum then
      Scanner.identBody f { s with current := s.current + 1 }
    else s

/-- `Scanner::identifier_token`. -/
def Scanner.identifier_token (s : Scanner) : Token × Scanner :=
  let s := Scanner.identBody (s.source.length + 1) s
  (s.make_token s.identifier_type, s)

/-- The digit-run loop of `Scanner::number_token`, with fuel. -/
def Scanner.digitBody : Nat → Scanner → Scanner
  | 0, s => s
  | f + 1, s =>
    if ¬ s.is_at_end ∧ s.peek.isDigit then
      Scanner.digitBody f { s with current := s.current + 1 }
    else s

/-- `Scanner::number_token`: digits, then optionally a dot followed by
more digits. -/
def Scanner.number_token (s : Scanner) : Token × Scanner :=
  let s := Scanner.digitBody (s.source.length + 1) s
  let s :=
    if ¬ s.is_at_end ∧ s.peek = '.' ∧ s.peek_next.isDigit then
      Scanner.digitBody (s.source.length + 1) { s with current := s.current + 1 }
    else s
  (s.make_token .number, s)

/-- The body loop of `Scanner::string_token`, with fuel: scan to the
closing quote, counting embedded newlines. -/
def Scanner.stringBody : Nat → Scanner → Scanner
  | 0, s => s
  | f + 1, s =>
    if ¬ s.is_at_end ∧ s.peek ≠ '"' then
      if s.peek = '\n' then
        Scanner.stringBody f { s with current := s.current + 1, line := s.line + 1 }
      else
        Scanner.stringBody f { s with current := s.current + 1 }
    else s

/-- `Scanner::string_token` (note the source first bumps `start` past the
opening quote). -/
def Scanner.string_token (s : Scanner) : Token × Scanner :=
  let s := { s with start := s.start + 1 }
  let s := Scanner.stringBody (s.source.length + 1) s
  if s.is_at_end then (s.error_token "Unterminated string.", s)
  else
    let s := { s with current := s.current + 1 }
    (s.make_token .str, s)

/-- `Scanner::scan_token` (Rust `is_alphabetic`/`is_digit(10)` coincide
with `Char.isAlpha`/`Char.isDigit` on the ASCII sources used here). -/
def Scanner.scan_token (s : Scanner) : Token × Scanner :=
  let s := Scanner.skipWS (s.source.length + 1) s
  let s := { s with start := s.current }
  if s.is_at_end then (s.make_token .eof, s)
  else
    let (c, s) := s.advanceC
    if c.isAlpha then s.identifier_token
    else if c.isDigit then s.number_token
    else
      match c with
      | '(' => (s.make_token .leftParen, s)
      | ')' => (s.make_token .rightParen, s)
      | '\x7b' => (s.make_token .leftBrace, s)
      | '\x7d' => (s.make_token .rightBrace, s)
      | ';' => (s.make_token .semiColon, s)
      | ':' => (s.make_token .colon, s)
      | ',' => (s.make_token .comma, s)
      | '.' => (s.make_token .dot, s)
      | '-' => (s.make_token .minus, s)
      | '+' => (s.make_token .plus, s)
      | '/' => (s.make_token .slash, s)
      | '*' => (s.make_token .star, s)
      | '!' =>
        let (matched, s) := s.checkC '='
        (s.make_token (if matched then .bangEqual else .bang), s)
      | '=' =>
        let (matched, s) := s.checkC '='
        (s.make_token (if matched then .equalEqual else .equal), s)
      | '<' =>
        let (matched, s) := s.checkC '='
        (s.make_token (if matched then .lessEqual else .less), s)
      | '>' =>
        let (matched, s) := s.checkC '='
        (s.make_token (if matched then .greaterEqual else .greater), s)
      | '"' => s.string_token
      | _ => (s.error_token "Unexpected character.", s)

/-- Operator binding strength, from `compiler.rs` (`Precedence`). -/
inductive Precedence where
  | none | assignment | pOr | pAnd | equality | comparison
  | term | factor | unary | call | primary
  deriving DecidableEq, Repr

/-- Numeric rank used for the derived `<=` comparisons on `Precedence`
(the Rust enum derives `PartialOrd`/`Ord` from declaration order). -/
def Precedence.rank : Precedence → Nat
  | .none => 0
  | .assignment => 1
  | .pOr => 2
  | .pAnd => 3
  | .equality => 4
  | .comparison => 5
  | .term => 6
  | .factor => 7
  | .unary => 8
  | .call => 9
  | .primary => 10

/-- `a <= b` on `Precedence`, by declaration order. -/
def Precedence.le (a b : Precedence) : Bool :=
  a.rank ≤ b.rank

/-- `Precedence::next`. -/
def Precedence.next : Precedence → Precedence
  | .none => .assignment
  | .assignment => .pOr
  | .pOr => .pAnd
  | .pAnd => .equality
  | .equality => .comparison
  | .comparison => .term
  | .term => .factor
  | .factor => .unary
  | .unary => .call
  | .call => .primary
  | .primary => .primary

/-- Which parse handler a rule names, from `compiler.rs` (`Method`) — here
a plain tag, dispatched in `parse_precedence`/`infixLoop`. -/
inductive MethodTag where
  | grouping | unaryM | binaryM | numberM | strM | literalM | variableM | noneM
  deriving DecidableEq, Repr

/-- One row of the Pratt table, from `compiler.rs` (`ParseRule`). -/
structure ParseRule where
  preRule : MethodTag
  infRule : MethodTag
  precedence : Precedence

/-- The Pratt parse-rule table, from `compiler.rs`
(`impl GetRule for TokenType`). -/
def getRule : TokenType → ParseRule
  | .leftParen => ⟨.grouping, .noneM, .none⟩
  | .minus => ⟨.unaryM, .binaryM, .term⟩
  | .plus => ⟨.noneM, .binaryM, .term⟩
  | .slash => ⟨.noneM, .binaryM, .factor⟩
  | .star => ⟨.noneM, .binaryM, .factor⟩
  | .bang => ⟨.unaryM, .noneM, .none⟩
  | .bangEqual => ⟨.noneM, .binaryM, .equality⟩
  | .equalEqual => ⟨.noneM, .binaryM, .equality⟩
  | .greater => ⟨.noneM, .binaryM, .comparison⟩
  | .greaterEqual => ⟨.noneM, .binaryM, .comparison⟩
  | .less => ⟨.noneM, .binaryM, .comparison⟩
  | .lessEqual => ⟨.noneM, .binaryM, .comparison⟩
  | .identifier => ⟨.variableM, .noneM, .none⟩
  | .str => ⟨.strM, .noneM, .none⟩
  | .number => ⟨.numberM, .noneM, .none⟩
  | .kFalse => ⟨.literalM, .noneM, .none⟩
  | .kNil => ⟨.literalM, .noneM, .none⟩
  | .kTrue => ⟨.literalM, .noneM, .none⟩
  | _ => ⟨.noneM, .noneM, .none⟩

/-- Two-token lookahead plus error flags, from `compiler.rs` (`Parser`).
The `errors` list records the messages the source prints with
`eprintln!`, in order. -/
structure Parser where
  previous : Token
  current : Token
  had_error : Bool
  panic_mode : Bool
  errors : List String
  deriving DecidableEq, Repr

/-- `Parser::new`. -/
def Parser.new : Parser :=
  { previous := Token.empty, current := Token.empty,
    had_error := false, panic_mode := false, errors := [] }

/-- `Parser::reset`. -/
def Parser.reset (p : Parser) : Parser :=
  { p with had_error := false, panic_mode := false }

/-- `Parser::check`. -/
def Parser.checkT (p : Parser) (typ : TokenType) : Bool :=
  p.current.typ = typ

/-- `Parser::error`: record the message (the error token's own message
when the argument is empty) and set both flags. -/
def Parser.error (p : Parser) (message : String) : Parser :=
  let m := if message = "" then p.current.message else message
  { p with had_error := true, panic_mode := true, errors := p.errors ++ [m] }

/-- Compile-time variable binding, from `compiler.rs` (`Local`); depth
`-1` is the declared-but-uninitialized sentinel. -/
structure Local where
  name : String
  depth : Int
  deriving DecidableEq, Repr

/-- Whole compiler state, from `compiler.rs` (`Compiler`). -/
structure Compiler where
  scanner : Scanner
  parser : Parser
  locals : List Local
  scope_depth : Nat
  chunk : Chunk
  objects : Arena Obj

/-- `Compiler::new`. -/
def Compiler.new (source : String) (objects : Arena Obj) : Compiler :=
  { scanner := Scanner.new source, parser := Parser.new, locals := [],
    scope_depth := 0, chunk := Chunk.new, objects := objects }

/-- The error-token-skipping loop of `Compiler::advance`, with fuel. -/
def Compiler.advanceLoop : Nat → Compiler → Compiler
  | 0, s => s
  | f + 1, s =>
    let (tok, sc) := s.scanner.scan_token
    let s := { s with scanner := sc, parser := { s.parser with current := tok } }
    if tok.typ ≠ .error then s
    else Compiler.advanceLoop f { s with parser := s.parser.error "" }

/-- `Compiler::advance`: shift `current` into `previous`, then scan past
any error tokens (reporting each). -/
def Compiler.advance (s : Compiler) : Compiler :=
  let s := { s with parser :=
    { s.parser with previous := s.parser.current, current := Token.empty } }
  Compiler.advanceLoop (s.scanner.source.length + 2) s

/-- `Compiler::consume`. -/
def Compiler.consume (s : Compiler) (typ : TokenType) (message : String) : Compiler :=
  if s.parser.current.typ = typ then s.advance
  else { s with parser := s.parser.error message }

/-- `Compiler::check`: test the current token's kind and advance past it
on a match. -/
def Compiler.checkAdv (s : Compiler) (typ : TokenType) : Bool × Compiler :=
  if s.parser.checkT typ then (true, s.advance) else (false, s)

/-- `Compiler::emit_byte`. -/
def Compiler.emit_byte (s : Compiler) (byte : Op) : Compiler :=
  { s with chunk := s.chunk.write byte s.parser.previous.line }

/-- `Compiler::emit_bytes`. -/
def Compiler.emit_bytes (s : Compiler) (first second : Op) : Compiler :=
  (s.emit_byte first).emit_byte second

/-- `Compiler::emit_jump`: write the placeholder and return its offset. -/
def Compiler.emit_jump (s : Compiler) (byte : Op) : Nat × Compiler :=
  let s := s.emit_byte byte
  (s.chunk.code_len - 1, s)

/-- `Compiler::patch_jump`: overwrite the jump at `offset` with the same
kind targeting the current end of the chunk.  The source panics when the
op at `offset` is not a jump; that arm (unreachable, every patched offset
holds a jump) is modelled as leaving the chunk unchanged. -/
def Compiler.patch_jump (s : Compiler) (offset : Nat) : Compiler :=
  let jump := s.chunk.code_len
  match s.chunk.code.get? offset with
  | some (.jumpIfFalse _) =>
    { s with chunk := { s.chunk with code := s.chunk.code.set offset (.jumpIfFalse jump) } }
  | some (.jump _) =>
    { s with chunk := { s.chunk with code := s.chunk.code.set offset (.jump jump) } }
  | _ => s

/-- `Compiler::make_constant`. -/
def Compiler.make_constant (s : Compiler) (value : Value) : Compiler :=
  let (chunk, index) := s.chunk.add_constant value
  Compiler.emit_byte { s with chunk := chunk } (.constant index)

/-- `Compiler::identifier_constant`: intern the name in the arena and add
an object constant pointing at it. -/
def Compiler.identifier_constant (s : Compiler) (name : String) : Nat × Compiler :=
  let objects := s.objects.push (.ident name)
  let (chunk, index) := s.chunk.add_constant (.obj (objects.len - 1))
  (index, { s with objects := objects, chunk := chunk })

/-- `Compiler::is_global_scope`. -/
def Compiler.is_global_scope (s : Compiler) : Bool :=
  s.scope_depth = 0

/-- `Compiler::begin_scope`. -/
def Compiler.begin_scope (s : Compiler) : Compiler :=
  { s with scope_depth := s.scope_depth + 1 }

/-- `Compiler::clear_scope`: keep the longest prefix of `locals` whose
depth is strictly below the (already decremented) `scope_depth`. -/
def Compiler.clear_scope (s : Compiler) : List Local :=
  s.locals.takeWhile (fun l => l.depth < (s.scope_depth : Int))

/-- `Compiler::end_scope`: decrement the depth, emit one `Pop` per local
whose depth exceeds the new depth (in declaration order), then replace
`locals` with `clear_scope`'s prefix. -/
def Compiler.end_scope (s : Compiler) : Compiler :=
  let s := { s with scope_depth := s.scope_depth - 1 }
  let chunk := s.locals.foldl
    (fun ch l =>
      if l.depth ≤ (s.scope_depth : Int) then ch
      else ch.write .pop s.parser.previous.line)
    s.chunk
  { s with chunk := chunk, locals := s.clear_scope }

/-- The innermost-to-outermost search of `Compiler::resolve_local`: the
match with the highest index, as `iter().enumerate().rev()` finds it. -/
def findLocalRev (locals : List Local) (name : String) : Option (Nat × Local) :=
  locals.enum.reverse.find? (fun p => p.2.name = name)

/-- `Compiler::resolve_local`: the slot of the nearest local with this
name, reporting the own-initializer error when its depth is the `-1`
sentinel. -/
def Compiler.resolve_local (s : Compiler) (name : String) : Option Nat × Compiler :=
  match findLocalRev s.locals name with
  | some (index, l) =>
    if l.depth = -1 then
      (some index,
        { s with parser := s.parser.error "Can't read local variable in its own initializer." })
    else (some index, s)
  | none => (none, s)

/-- `Compiler::add_local`: push the binding with the uninitialized `-1`
depth sentinel. -/
def Compiler.add_local (s : Compiler) (name : String) : Compiler :=
  { s with locals := s.locals ++ [⟨name, -1⟩] }

/-- The duplicate-name walk of `Compiler::declare_variable` over the
reversed locals list: collect one error message per same-name local until
an initialized local of an enclosing scope is reached. -/
def declareCheck : List Local → String → Int → List String
  | [], _, _ => []
  | l :: rest, name, sd =>
    if l.depth ≠ -1 ∧ l.depth < sd then []
    else
      (if l.name = name then
        ["Variable with name " ++ name ++ " already exists in this scope."]
      else []) ++ declareCheck rest name sd

/-- `Compiler::declare_variable`. -/
def Compiler.declare_variable (s : Compiler) : Compiler :=
  if s.is_global_scope then s
  else
    let name := s.parser.previous.lexeme
    let msgs := declareCheck s.locals.reverse name (s.scope_depth : Int)
    let s := msgs.foldl (fun st m => { st with parser := st.parser.error m }) s
    s.add_local name

/-- `Compiler::parse_variable`. -/
def Compiler.parse_variable (s : Compiler) (error_message : String) : Nat × Compiler :=
  let s := s.consume .identifier error_message
  let s := s.declare_variable
  if ¬ s.is_global_scope then (0, s)
  else s.identifier_constant s.parser.previous.lexeme

/-- `Compiler::mark_initialized`: set the last local's depth to the
current scope depth (no-op on an empty list, where the source's
`len() - 1` indexing would panic; unreachable, it runs just after
`add_local`). -/
def Compiler.mark_initialized (s : Compiler) : Compiler :=
  match s.locals.getLast? with
  | some l =>
    let l2 : Local := { l with depth := (s.scope_depth : Int) }
    { s with locals := s.locals.set (s.locals.length - 1) l2 }
  | none => s

/-- `Compiler::define_variable`. -/
def Compiler.define_variable (s : Compiler) (global : Nat) : Compiler :=
  if ¬ s.is_global_scope then s.mark_initialized
  else s.emit_byte (.defineGlobal global)

/-- The token-discarding loop of `Compiler::synchronize`, with fuel. -/
def Compiler.syncLoop : Nat → Compiler → Compiler
  | 0, s => s
  | f + 1, s =>
    if s.parser.current.typ ≠ .eof then
      if s.parser.previous.typ = .semiColon then s
      else
        match s.parser.current.typ with
        | .kClass | .kFun | .kVar | .kFor | .kIf | .kWhile | .kPrint | .kReturn => s
        | _ => Compiler.syncLoop f s.advance
    else s

/-- `Compiler::synchronize`: leave panic mode and discard tokens up to a
probable statement boundary. -/
def Compiler.synchronize (s : Compiler) : Compiler :=
  Compiler.syncLoop (s.scanner.source.length + 2)
    { s with parser := { s.parser with panic_mode := false } }

/-- The `f64` parse of `Compiler::number`'s lexeme, modelled exactly on
`Ratl`: an integer part and an optional fractional part (exact for the
literals the claims use; the `unwrap` panic on a malformed lexeme is
unreachable because the scanner only emits digit/dot runs). -/
def parseNumber (lexeme : String) : Ratl :=
  let parts := lexeme.toList
  let intPart := parts.takeWhile (fun c => c ≠ '.')
  let fracPart := (parts.dropWhile (fun c => c ≠ '.')).drop 1
  let digits : List Char → Int :=
    fun l => l.foldl (fun acc c => acc * 10 + ((c.toNat - '0'.toNat : Nat) : Int)) 0
  let den : Nat := 10 ^ fracPart.length
  Ratl.norm (digits intPart * den + digits fracPart) den

/-- `Compiler::number`. -/
def Compiler.numberFn (s : Compiler) : Compiler :=
  s.make_constant (.number (parseNumber s.parser.previous.lexeme))

/-- `Compiler::string`: allocate the string object and emit an object
constant for it. -/
def Compiler.stringFn (s : Compiler) : Compiler :=
  let objects := s.objects.push (.str s.parser.previous.lexeme)
  Compiler.make_constant { s with objects := objects } (.obj (objects.len - 1))

/-- `Compiler::literal` (the unreachable panic arm is the identity). -/
def Compiler.literalFn (s : Compiler) : Compiler :=
  match s.parser.previous.typ with
  | .kFalse => s.emit_byte .opFalse
  | .kNil => s.emit_byte .nil
  | .kTrue => s.emit_byte .opTrue
  | _ => s

/-- `Compiler::end`. -/
def Compiler.endC (s : Compiler) : Compiler :=
  s.emit_byte .ret

mutual

/-- `Compiler::declaration`, with fuel threading the mutual recursion. -/
def Compiler.declaration : Nat → Compiler → Compiler
  | 0, s => s
  | f + 1, s =>
    let (isVar, s) := s.checkAdv .kVar
    let s := if isVar then Compiler.var_declaration f s else Compiler.statement f s
    if s.parser.panic_mode then s.synchronize else s

/-- `Compiler::statement`. -/
def Compiler.statement : Nat → Compiler → Compiler
  | 0, s => s
  | f + 1, s =>
    let (isPrint, s) := s.checkAdv .kPrint
    if isPrint then Compiler.print_statement f s
    else
      let (isBrace, s) := s.checkAdv .leftBrace
      if isBrace then
        let s := s.begin_scope
        let s := Compiler.block f s
        s.end_scope
      else
        let (isIf, s) := s.checkAdv .kIf
        if isIf then Compiler.if_statement f s
        else Compiler.expression_statement f s

/-- `Compiler::var_declaration`. -/
def Compiler.var_declaration : Nat → Compiler → Compiler
  | 0, s => s
  | f + 1, s =>
    let (global, s) := s.parse_variable "Expect variable name."
    let (isEq, s) := s.checkAdv .equal
    let s := if isEq then Compiler.expression f s else s.emit_byte .nil
    let s := s.consume .semiColon "Expect ';' after variable declaration"
    s.define_variable global

/-- `Compiler::print_statement`. -/
def Compiler.print_statement : Nat → Compiler → Compiler
  | 0, s => s
  | f + 1, s =>
    let s := Compiler.expression f s
    let s := s.consume .semiColon "Expect ';' after value."
    s.emit_byte .print

/-- `Compiler::expression_statement`. -/
def Compiler.expression_statement : Nat → Compiler → Compiler
  | 0, s => s
  | f + 1, s =>
    let s := Compiler.expression f s
    let s := s.consume .semiColon "Expect ';' after expression."
    s.emit_byte .pop

/-- `Compiler::if_statement`: the back-patching codegen for
`if (expr) stmt [else stmt]`. -/
def Compiler.if_statement : Nat → Compiler → Compiler
  | 0, s => s
  | f + 1, s =>
    let s := s.consume .leftParen "Expect '(' after 'if'."
    let s := Compiler.expression f s
    let s := s.consume .rightParen "Expect ')' after condition."
    let (thenJump, s) := s.emit_jump (.jumpIfFalse 0)
    let s := s.emit_byte .pop
    let s := Compiler.statement f s
    let (elseJump, s) := s.emit_jump (.jump 0)
    let s := s.patch_jump thenJump
    let s := s.emit_byte .pop
    let (isElse, s) := s.checkAdv .kElse
    let s := if isElse then Compiler.statement f s else s
    s.patch_jump elseJump

/-- The declaration loop plus closing-brace consume of
`Compiler::block`. -/
def Compiler.block : Nat → Compiler → Compiler
  | 0, s => s
  | f + 1, s =>
    if ¬ s.parser.checkT .rightBrace ∧ ¬ s.parser.checkT .eof then
      Compiler.block f (Compiler.declaration f s)
    else
      s.consume .rightBrace "Expect '\x7d' after block."

/-- `Compiler::expression`. -/
def Compiler.expression : Nat → Compiler → Compiler
  | 0, s => s
  | f + 1, s => Compiler.parse_precedence f .assignment s

/-- `Compiler::parse_precedence`: advance, run the prefix rule of the new
`previous` token (an error and early return when there is none), fold
infix rules of at least the given precedence, then reject a trailing `=`
for non-assignable targets. -/
def Compiler.parse_precedence : Nat → Precedence → Compiler → Compiler
  | 0, _, s => s
  | f + 1, precedence, s =>
    let s := s.advance
    let canAssign := precedence.le .assignment
    match (getRule s.parser.previous.typ).preRule with
    | .noneM => { s with parser := s.parser.error "Expected prefix expression." }
    | tag =>
      let s := match tag with
        | .grouping => Compiler.grouping f s
        | .unaryM => Compiler.unaryFn f s
        | .numberM => s.numberFn
        | .strM => s.stringFn
        | .literalM => s.literalFn
        | .variableM => Compiler.variableFn f canAssign s
        | _ => s
      let s := Compiler.infixLoop f precedence s
      if canAssign then
        let (isEq, s) := s.checkAdv .equal
        if isEq then { s with parser := s.parser.error "Invalid assignment target." }
        else s
      else s

/-- The infix-consuming `while` loop of `Compiler::parse_precedence`
(only `Binary` infix rules exist in the table; the source's unreachable
panic on any other tag is the identity). -/
def Compiler.infixLoop : Nat → Precedence → Compiler → Compiler
  | 0, _, s => s
  | f + 1, precedence, s =>
    if precedence.le (getRule s.parser.current.typ).precedence then
      let s := s.advance
      let s := match (getRule s.parser.previous.typ).infRule with
        | .binaryM => Compiler.binaryFn f s
        | _ => s
      Compiler.infixLoop f precedence s
    else s

/-- `Compiler::binary`: parse the right operand one level tighter, then
emit the operator's opcode(s) (the unreachable panic arm is the
identity). -/
def Compiler.binaryFn : Nat → Compiler → Compiler
  | 0, s => s
  | f + 1, s =>
    let opType := s.parser.previous.typ
    let rule := getRule opType
    let s := Compiler.parse_precedence f rule.precedence.next s
    match opType with
    | .plus => s.emit_byte .add
    | .minus => s.emit_byte .subtract
    | .star => s.emit_byte .multiply
    | .slash => s.emit_byte .divide
    | .bangEqual => s.emit_bytes .equal .not
    | .equalEqual => s.emit_byte .equal
    | .greater => s.emit_byte .greater
    | .greaterEqual => s.emit_bytes .less .not
    | .less => s.emit_byte .less
    | .lessEqual => s.emit_bytes .greater .not
    | _ => s

/-- `Compiler::unary` (the unreachable panic arm is the identity). -/
def Compiler.unaryFn : Nat → Compiler → Compiler
  | 0, s => s
  | f + 1, s =>
    let opType := s.parser.previous.typ
    let s := Compiler.parse_precedence f .unary s
    match opType with
    | .bang => s.emit_byte .not
    | .minus => s.emit_byte .negate
    | _ => s

/-- `Compiler::grouping`. -/
def Compiler.grouping : Nat → Compiler → Compiler
  | 0, s => s
  | f + 1, s =>
    let s := Compiler.expression f s
    s.consume .rightParen "Expect ')' after expression"

/-- `Compiler::named_variable`: resolve the name as a local slot or a
global identifier constant, then emit a get, or parse `= expr` and emit a
set when an assignment is allowed. -/
def Compiler.named_variable : Nat → String → Bool → Compiler → Compiler
  | 0, _, _, s => s
  | f + 1, name, canAssign, s =>
    let (arg, s) := s.resolve_local name
    let (getOp, setOp, s) :=
      match arg with
      | some a => (Op.getLocal a, Op.setLocal a, s)
      | none =>
        let (index, s) := s.identifier_constant name
        (Op.getGlobal index, Op.setGlobal index, s)
    if canAssign then
      let (isEq, s) := s.checkAdv .equal
      if isEq then (Compiler.expression f s).emit_byte setOp
      else s.emit_byte getOp
    else s.emit_byte getOp

/-- `Compiler::variable`. -/
def Compiler.variableFn : Nat → Bool → Compiler → Compiler
  | 0, _, s => s
  | f + 1, canAssign, s => Compiler.named_variable f s.parser.previous.lexeme canAssign s

end

/-- The `while !check(Eof) { declaration() }` loop of
`Compiler::compile`, with fuel. -/
def Compiler.compileLoop : Nat → Compiler → Compiler
  | 0, s => s
  | f + 1, s =>
    let (isEof, s) := s.checkAdv .eof
    if ¬ isEof then Compiler.compileLoop f (Compiler.declaration f s) else s

/-- The state `Compiler::compile` reaches just before its final
`had_error` test: reset, prime the lookahead, run declarations to `Eof`,
emit the trailing `Return`. -/
def Compiler.compileFinal (fuel : Nat) (source : String) (objects : Arena Obj) : Compiler :=
  let s := Compiler.new source objects
  let s := { s with parser := s.parser.reset }
  let s := s.advance
  let s := Compiler.compileLoop fuel s
  s.endC

/-- `Compiler::compile`: the finished state, or failure when any error
was recorded. -/
def Compiler.compile (fuel : Nat) (source : String) (objects : Arena Obj) :
    Except Unit Compiler :=
  let s := Compiler.compileFinal fuel source objects
  if s.parser.had_error then .error () else .ok s

/-- Execution status, from `vm.rs` (`Interpret`). -/
inductive Interpret where
  | ok | compileError | runtimeError
  deriving DecidableEq, Repr

/-- VM state, from `vm.rs` (`Vm`).  The operand stack keeps its top at
the head; the `HashMap` of globals is a lookup function. -/
structure Vm where
  ip : Nat
  stack : List Value
  objects : Arena Obj
  globals : String → Option Value

/-- `Vm::new`. -/
def Vm.new : Vm :=
  { ip := 0, stack := [], objects := Arena.new, globals := fun _ => none }

/-- One line of `print` output: the value itself, or — for an object —
the text it resolves to through the arena. -/
inductive PrintOut where
  | val (v : Value)
  | text (t : String)
  deriving DecidableEq, Repr

/-- `Vm::peek`: index from the top without removing; `none` models the
stack-underflow panic. -/
def Vm.peek (s : Vm) (distance : Nat) : Option Value :=
  s.stack.get? distance

/-- `Vm::reset_stack`. -/
def Vm.reset_stack (s : Vm) : Vm :=
  { s with ip := 0, stack := [] }

/-- HashMap `insert`: bind `name`, overwriting any prior binding. -/
def Vm.insertGlobal (s : Vm) (name : String) (v : Value) : Vm :=
  { s with globals := fun k => if k = name then some v else s.globals k }

/-- Outcome of one arithmetic/comparison helper, from `vm.rs`
(`Result<(), String>`); `crash` models the stack-underflow panics. -/
inductive OpOut where
  | ok (s : Vm)
  | err (message : String)
  | crash

/-- `Vm::binary_op`: peek both operands, fail unless both are numbers,
then pop right, pop left and push `op left right`. -/
def Vm.binary_op (s : Vm) (op : Ratl → Ratl → Value) : OpOut :=
  match s.peek 0, s.peek 1 with
  | some v0, some v1 =>
    if ¬ v0.is_number ∨ ¬ v1.is_number then .err "Operands must both be numbers."
    else
      match s.stack with
      | .number right :: .number left :: rest =>
        .ok { s with stack := op left right :: rest }
      | _ => .ok s
  | _, _ => .crash

/-- `Vm::add`: numeric addition for two numbers; for two arena string
objects, allocate the concatenation and push a reference to it (exactly
as the source does — the two operands are not popped); any other tag
combination is a runtime error reported before anything is popped. -/
def Vm.addOp (s : Vm) : OpOut :=
  match s.peek 0, s.peek 1 with
  | some (.obj bIndex), some (.obj aIndex) =>
    (match s.objects.get aIndex, s.objects.get bIndex with
    | some (.str aStr), some (.str bStr) =>
      let objects := s.objects.push (.str (aStr ++ bStr))
      let value := Value.obj (objects.len - 1)
      .ok { s with objects := objects, stack := value :: s.stack }
    | some _, some _ => .err "Operands must both be strings."
    | _, _ => .crash)
  | some (.number _), some (.number _) =>
    s.binary_op (fun left right => .number (left.add right))
  | some _, some _ => .err "Operands must both be strings or numbers."
  | _, _ => .crash

/-- Resolve the identifier named by constant `index`:
`objects.get(chunk.read_constant(index).as_obj()).lexeme()`. -/
def Vm.readIdent (s : Vm) (c : Chunk) (index : Nat) : Option String :=
  match c.read_constant index with
  | some v =>
    match v.as_obj with
    | some objIndex => (s.objects.get objIndex).map Obj.lexeme
    | none => none
  | none => none

/-- Result of executing one instruction. -/
inductive StepRes where
  | cont (s : Vm) (out : List PrintOut)
  | halt (status : Interpret) (s : Vm)
  | crash

/-- `Vm::runtime_error`: report, reset the instruction pointer and
discard the operand stack, and end the run with the failure status
(globals and arena untouched). -/
def Vm.runtime_error (s : Vm) : StepRes :=
  .halt .runtimeError s.reset_stack

/-- One iteration of `Vm::run`'s fetch-decode-execute loop.  The
`getLocal`/`setLocal`/`jumpIfFalse`/`jump` arms are absent from
`vm.rs`'s dispatch and are modelled from the spec: locals read/write the
stack slot directly (slots count from the stack bottom), `JumpIfFalse`
moves `ip` to its target when the peeked (never auto-popped) condition is
falsey, and `Jump` moves `ip` unconditionally. -/
def Vm.step (c : Chunk) (s : Vm) : StepRes :=
  match c.read_op s.ip with
  | none => .crash
  | some op =>
    let s := { s with ip := s.ip + 1 }
    match op with
    | .constant index =>
      match c.read_constant index with
      | some v => .cont { s with stack := v :: s.stack } []
      | none => .crash
    | .nil => .cont { s with stack := .nil :: s.stack } []
    | .opTrue => .cont { s with stack := .bool true :: s.stack } []
    | .opFalse => .cont { s with stack := .bool false :: s.stack } []
    | .pop =>
      match s.stack with
      | _ :: rest => .cont { s with stack := rest } []
      | [] => .crash
    | .defineGlobal index =>
      match s.stack with
      | value :: rest =>
        (match s.readIdent c index with
        | some name => .cont (Vm.insertGlobal { s with stack := rest } name value) []
        | none => .crash)
      | [] => .crash
    | .getGlobal index =>
      (match s.readIdent c index with
      | some name =>
        (match s.globals name with
        | some value => .cont { s with stack := value :: s.stack } []
        | none => s.runtime_error)
      | none => .crash)
    | .setGlobal index =>
      (match s.readIdent c index with
      | some name =>
        if (s.globals name).isNone then s.runtime_error
        else
          (match s.peek 0 with
          | some value => .cont (s.insertGlobal name value) []
          | none => .crash)
      | none => .crash)
    | .getLocal slot =>
      (match s.stack.get? (s.stack.length - 1 - slot) with
      | some value => .cont { s with stack := value :: s.stack } []
      | none => .crash)
    | .setLocal slot =>
      (match s.peek 0 with
      | some value =>
        .cont { s with stack := s.stack.set (s.stack.length - 1 - slot) value } []
      | none => .crash)
    | .jumpIfFalse target =>
      (match s.peek 0 with
      | some condition =>
        if condition.is_falsey then .cont { s with ip := target } []
        else .cont s []
      | none => .crash)
    | .jump target => .cont { s with ip := target } []
    | .equal =>
      match s.stack with
      | second :: first :: rest =>
        .cont { s with stack := .bool (first = second) :: rest } []
      | _ => .crash
    | .greater =>
      (match s.binary_op (fun a b => .bool (a.bgt b)) with
      | .ok s1 => .cont s1 []
      | .err _ => s.runtime_error
      | .crash => .crash)
    | .less =>
      (match s.binary_op (fun a b => .bool (a.blt b)) with
      | .ok s1 => .cont s1 []
      | .err _ => s.runtime_error
      | .crash => .crash)
    | .add =>
      (match s.addOp with
      | .ok s1 => .cont s1 []
      | .err _ => s.runtime_error
      | .crash => .crash)
    | .subtract =>
      (match s.binary_op (fun a b => .number (a.sub b)) with
      | .ok s1 => .cont s1 []
      | .err _ => s.runtime_error
      | .crash => .crash)
    | .multiply =>
      (match s.binary_op (fun a b => .number (a.mul b)) with
      | .ok s1 => .cont s1 []
      | .err _ => s.runtime_error
      | .crash => .crash)
    | .divide =>
      (match s.binary_op (fun a b => .number (a.div b)) with
      | .ok s1 => .cont s1 []
      | .err _ => s.runtime_error
      | .crash => .crash)
    | .not =>
      match s.stack with
      | value :: rest =>
        .cont { s with stack := .bool value.is_falsey :: rest } []
      | [] => .crash
    | .negate =>
      (match s.peek 0 with
      | some v =>
        if ¬ v.is_number then s.runtime_error
        else
          match s.stack with
          | .number n :: rest => .cont { s with stack := .number n.neg :: rest } []
          | _ :: rest => .cont { s with stack := rest } []
          | [] => .crash
      | none => .crash)
    | .print =>
      match s.stack with
      | value :: rest =>
        (match value with
        | .obj index =>
          (match s.objects.get index with
          | some o => .cont { s with stack := rest } [.text o.lexeme]
          | none => .crash)
        | _ => .cont { s with stack := rest } [.val value])
      | [] => .crash
    | .ret => .halt .ok s

/-- `Vm::run`'s loop, with fuel; `none` models a panic (or fuel
exhaustion).  The printed output is collected in order. -/
def Vm.run : Nat → Chunk → Vm → Option (Interpret × Vm × List PrintOut)
  | 0, _, _ => none
  | f + 1, c, s =>
    match Vm.step c s with
    | .crash => none
    | .halt status s1 => some (status, s1, [])
    | .cont s1 out =>
      match Vm.run f c s1 with
      | some (status, s2, out2) => some (status, s2, out ++ out2)
      | none => none

/-- `Vm::interpret`: compile with the VM's arena threaded through, run
the chunk on success, report `CompileError` (running nothing) on
failure. -/
def Vm.interpret (cfuel rfuel : Nat) (source : String) (vm : Vm) :
    Option (Interpret × Vm × List PrintOut) :=
  let fin := Compiler.compileFinal cfuel source vm.objects
  let vm := { vm with objects := fin.objects }
  if fin.parser.had_error then some (.compileError, vm, [])
  else Vm.run rfuel fin.chunk vm

/-- Observable view of an `interpret` outcome: status, printed output,
final operand stack. -/
def Vm.interpretView (cfuel rfuel : Nat) (source : String) (vm : Vm) :
    Option (Interpret × List PrintOut × List Value) :=
  (Vm.interpret cfuel rfuel source vm).map
    (fun r => (r.1, r.2.2, r.2.1.stack))

/-- Error-flag monotonicity: a function on compiler state never clears a
previously recorded parse error. -/
def ErrMono (f : Compiler → Compiler) : Prop :=
  ∀ s, s.parser.had_error = true → (f s).parser.had_error = true

/-- Compiler state mid-way through compiling
`"\x7b var a = 1; \x7b var b = 2; \x7d print a; \x7d"`: the inner block
(depth 2, local `b`) is about to close while the outer block's local `a`
(depth 1) is still in scope. -/
def c3State : Compiler :=
  { Compiler.new "" Arena.new with
      locals := [⟨"a", 1⟩, ⟨"b", 2⟩], scope_depth := 2 }

/-- A chunk holding a single `Add`, for exercising `Vm::add` directly. -/
def c4Chunk : Chunk :=
  { Chunk.new with code := [.add] }

/-- VM state about to execute `Add` on two arena strings `"x"` and
`"y"`. -/
def c4Vm : Vm :=
  { Vm.new with
      objects := (Arena.new.push (.str "x")).push (.str "y"),
      stack := [.obj 1, .obj 0] }

/-- The state `Vm::add` actually produces from `c4Vm`: the concatenation
is pushed on top and both operands stay beneath it. -/
def c4VmAfter : Vm :=
  { c4Vm with
      ip := 1,
      objects := c4Vm.objects.push (.str "xy"),
      stack := [.obj 2, .obj 1, .obj 0] }

/-- A chunk holding a single `Negate`, for exercising a runtime error. -/
def c8Chunk : Chunk :=
  { Chunk.new with code := [.negate] }

/-- VM state with a non-number atop the stack, one defined global and one
heap object: executing `Negate` on it is a runtime error. -/
def c8Vm : Vm :=
  { Vm.new with
      objects := Arena.new.push (.str "kept"),
      stack := [.bool true],
      globals := fun k => if k = "g" then some (.number 3) else none }

/-- The state the runtime error leaves behind: stack discarded,
instruction pointer reset, globals and arena untouched. -/
def c8VmAfter : Vm :=
  { c8Vm with ip := 0, stack := [] }

/-- A chunk holding a single `SetGlobal 0` whose identifier constant
resolves through the arena to the name `"g"`. -/
def c10Chunk : Chunk :=
  { Chunk.new with code := [.setGlobal 0], constants := [.obj 0] }

/-- VM state for assigning to the defined global `"g"` (another global
`"h"` checks the frame condition). -/
def c10Vm : Vm :=
  { Vm.new with
      objects := Arena.new.push (.ident "g"),
      stack := [.number 5, .number 9],
      globals := fun k =>
        if k = "g" then some (.nil) else if k = "h" then some (.number 7) else none }

/-- Like `c10Vm` but with no binding for `"g"`. -/
def c10VmAbsent : Vm :=
  { c10Vm with globals := fun k => if k = "h" then some (.number 7) else none }

/-- A compiler state whose parser has already recorded an error. -/
def c7ErrState : Compiler :=
  { Compiler.new "" Arena.new with
      parser := { Parser.new with had_error := true } }

/-- Two writes at line 1 followed by one at line 2 build the line table
the compiler actually produces. -/
theorem write_lines_example :
    (((Chunk.new.write .ret 1).write .ret 1).write .ret 2).lines = [1, 1, 1] := by
  rfl

/-- C1: compiling and running `"if (false) print 1; else print 2;"`
prints only `2`, and compiling and running `"if (true) print 1;"` (no
else branch) prints exactly `1`; in both cases the operand stack is empty
when execution reaches the final `Return`. -/
theorem c1_if_control_flow :
    Vm.interpretView 100 100 "if (false) print 1; else print 2;" Vm.new =
      some (.ok, [.val (.number 2)], []) ∧
    Vm.interpretView 100 100 "if (true) print 1;" Vm.new =
      some (.ok, [.val (.number 1)], []) := by
  constructor <;> decide

/-- C2 (divergence witness): after `write(op, 1); write(op, 2)` the op at
offset 1 was written with line 2, yet `get_line(1)` returns 1 — the
`line_counter < offset` loop condition stops one step early; moreover two
`write`s at the same line 1 produce the table `[1, 1]` rather than the
run-length count `[2]`. -/
theorem c2_get_line_divergence :
    ((Chunk.new.write .ret 1).write .ret 2).get_line 1 = 1 ∧
    ((Chunk.new.write .ret 1).write .ret 2).lines = [1, 1] ∧
    ((Chunk.new.write .ret 1).write .ret 1).lines = [1, 1] := by
  exact ⟨rfl, rfl, rfl⟩

/-- C3 (divergence witness): closing the inner scope of `c3State` emits
exactly one `Pop` (for its one local `b`), but `clear_scope`'s strict
`depth < scope_depth` comparison also prunes the outer local `a` of depth
1, which the still-open enclosing scope should retain — the locals list
comes back empty.  Compiling the nested-block source end-to-end shows the
consequence: after the inner block, `a` no longer resolves as a local, so
`print a` compiles to a global access, and the outer block's close emits
no `Pop` at all for `a` (its local is already gone). -/
theorem c3_end_scope_divergence :
    c3State.end_scope.chunk.code = [.pop] ∧
    c3State.end_scope.locals = [] ∧
    (Compiler.compileFinal 100
        "\x7b var a = 1; \x7b var b = 2; \x7d print a; \x7d" Arena.new).chunk.code =
      [.constant 0, .constant 1, .pop, .getGlobal 2, .print, .ret] := by
  refine ⟨rfl, rfl, by decide⟩

/-- C4 (divergence witness): executing `Add` over two arena strings
pushes the freshly concatenated string without popping either operand —
the stack grows from two entries to three, the operands still beneath the
result — instead of replacing the pair with the single result. -/
theorem c4_add_divergence :
    Vm.step c4Chunk c4Vm = .cont c4VmAfter [] ∧
    c4VmAfter.stack = [.obj 2, .obj 1, .obj 0] ∧
    c4VmAfter.objects.get 2 = some (.str "xy") := by
  exact ⟨rfl, rfl, rfl⟩

/-- C5: `push` appends the item to the currently live buffer; the item's
index is the new length minus one and `get` at that index (no intervening
flip) returns it; `len` reports the live buffer's length. -/
theorem c5_arena_push_get {T : Type} (a : Arena T) (item : T) :
    (a.push item).live = a.live ++ [item] ∧
    (a.push item).len = a.len + 1 ∧
    (a.push item).get ((a.push item).len - 1) = some item ∧
    a.len = a.live.length := by
  obtain ⟨la, lb, cur⟩ := a
  cases cur <;>
    simp [Arena.push, Arena.live, Arena.len, Arena.get, List.getElem?_concat_length]

/-- C9: `"print 1 + 2 * 3;"` prints 7 (the multiplication binds tighter
and runs first) and `"print (1 + 2) * 3;"` prints 9. -/
theorem c9_arithmetic_precedence :
    Vm.interpretView 100 100 "print 1 + 2 * 3;" Vm.new =
      some (.ok, [.val (.number 7)], []) ∧
    Vm.interpretView 100 100 "print (1 + 2) * 3;" Vm.new =
      some (.ok, [.val (.number 9)], []) := by
  constructor <;> decide

/-- C6: compiling `"\x7b var a = a; \x7d"` — a local read in its own
initializer — fails, and the single error recorded is exactly the message
the `-1` depth sentinel branch of `resolve_local` reports. -/
theorem c6_self_initializer_error :
    Compiler.compile 100 "\x7b var a = a; \x7d" Arena.new = .error () ∧
    (Compiler.compileFinal 100 "\x7b var a = a; \x7d" Arena.new).parser.errors =
      ["Can't read local variable in its own initializer."] := by
  have h : (Compiler.compileFinal 100 "\x7b var a = a; \x7d" Arena.new).parser.had_error
      = true := by decide
  exact ⟨by simp [Compiler.compile, h], by decide⟩

/-- `readIdent` ignores the instruction pointer. -/
theorem readIdent_ip (s : Vm) (c : Chunk) (i n : Nat) :
    Vm.readIdent { s with ip := n } c i = Vm.readIdent s c i := rfl

/-- C10: executing `SetGlobal` for a name already bound stores the peeked
top of stack into that binding without popping (the whole stack,
assigned value on top, is unchanged) and alters no other binding or the
arena; for an absent name it is a runtime error and the globals table is
left exactly as it was. -/
theorem c10_set_global (c : Chunk) (s : Vm) (index : Nat) (name : String)
    (hop : c.read_op s.ip = some (.setGlobal index))
    (hid : s.readIdent c index = some name) :
    (∀ value, s.globals name = some value →
      ∀ top rest, s.stack = top :: rest →
        ∃ s1, Vm.step c s = .cont s1 [] ∧
          s1.stack = s.stack ∧
          s1.objects = s.objects ∧
          s1.globals name = some top ∧
          (∀ k, k ≠ name → s1.globals k = s.globals k)) ∧
    (s.globals name = none →
      ∃ s1, Vm.step c s = .halt .runtimeError s1 ∧
        s1.globals = s.globals ∧ s1.objects = s.objects) := by
  constructor
  · intro value hv top rest hst
    refine ⟨Vm.insertGlobal { s with ip := s.ip + 1 } name top, ?_, rfl, rfl, ?_, ?_⟩
    · have hid2 : Vm.readIdent
          { ip := s.ip + 1, stack := top :: rest, objects := s.objects,
            globals := s.globals } c index = some name := hid
      simp only [Vm.step, hop, hid2, hv, Option.isNone_some,
        Bool.false_eq_true, if_false, Vm.peek, hst, List.get?_cons_zero]
    · simp [Vm.insertGlobal]
    · intro k hk
      simp [Vm.insertGlobal, hk]
  · intro hnone
    refine ⟨{ s with ip := 0, stack := [] }, ?_, rfl, rfl⟩
    simp only [Vm.step, hop, readIdent_ip, hid, hnone, Option.isNone_none,
      if_true, Vm.runtime_error, Vm.reset_stack]

/-- Witness for `c10_set_global` at a concrete chunk and VM: assigning to
the bound global `"g"` leaves the stack intact and only that binding
changed; assigning to the unbound `"g"` is a runtime error that leaves
the globals untouched. -/
theorem c10_set_global_witness :
    (∃ s1, Vm.step c10Chunk c10Vm = .cont s1 [] ∧
      s1.stack = c10Vm.stack ∧ s1.objects = c10Vm.objects ∧
      s1.globals "g" = some (.number 5) ∧
      (∀ k, k ≠ "g" → s1.globals k = c10Vm.globals k)) ∧
    (∃ s1, Vm.step c10Chunk c10VmAbsent = .halt .runtimeError s1 ∧
      s1.globals = c10VmAbsent.globals ∧ s1.objects = c10VmAbsent.objects) := by
  constructor
  · exact (c10_set_global c10Chunk c10Vm 0 "g" rfl rfl).1 .nil rfl
      (.number 5) [.number 9] rfl
  · exact (c10_set_global c10Chunk c10VmAbsent 0 "g" rfl rfl).2 rfl

/-- Every runtime-error step resets the stack and instruction pointer and
leaves the globals and arena of the state it fired from untouched. -/
theorem step_runtime_error_frame (c : Chunk) (s s1 : Vm)
    (h : Vm.step c s = .halt .runtimeError s1) :
    s1.stack = [] ∧ s1.ip = 0 ∧ s1.globals = s.globals ∧ s1.objects = s.objects := by
  unfold Vm.step at h
  rcases hro : c.read_op s.ip with _ | op
  · rw [hro] at h; cases h
  · rw [hro] at h
    cases op <;> simp only [] at h <;>
      (repeat' split at h) <;>
      (try cases h) <;>
      simp_all [Vm.runtime_error, Vm.reset_stack]

/-- A run that ends in the runtime-failure status hands back an empty
operand stack and a reset instruction pointer. -/
theorem run_runtime_error_resets (fuel : Nat) (c : Chunk) (s : Vm)
    (status : Interpret) (s1 : Vm) (out : List PrintOut)
    (h : Vm.run fuel c s = some (status, s1, out))
    (hrt : status = .runtimeError) :
    s1.stack = [] ∧ s1.ip = 0 := by
  induction fuel generalizing s out with
  | zero => simp [Vm.run] at h
  | succ f ih =>
    rw [Vm.run] at h
    rcases hs : Vm.step c s with ⟨s2, out2⟩ | ⟨st, s2⟩ | _ <;> rw [hs] at h <;>
        dsimp only at h
    · rcases hr : Vm.run f c s2 with _ | ⟨st2, s3, out3⟩ <;> rw [hr] at h <;>
          dsimp only at h
      · simp at h
      · simp only [Option.some.injEq, Prod.mk.injEq] at h
        obtain ⟨rfl, rfl, rfl⟩ := h
        exact ih s2 out3 hr
    · simp only [Option.some.injEq, Prod.mk.injEq] at h
      obtain ⟨rfl, rfl, rfl⟩ := h
      subst hrt
      obtain ⟨ha, hb, _, _⟩ := step_runtime_error_frame c s _ hs
      exact ⟨ha, hb⟩
    · simp at h

/-- C8: a runtime error is fatal to the current run — the run returns the
runtime-failure status with the operand stack emptied and the instruction
pointer reset — and the very step that detects the error hands back the
globals table and the arena exactly as they were at that instant, so
previously defined globals and heap objects survive for later runs. -/
theorem c8_runtime_error_effects :
    (∀ c s s1, Vm.step c s = .halt .runtimeError s1 →
      s1.stack = [] ∧ s1.ip = 0 ∧ s1.globals = s.globals ∧ s1.objects = s.objects) ∧
    (∀ fuel c s status s1 out, Vm.run fuel c s = some (status, s1, out) →
      status = .runtimeError → s1.stack = [] ∧ s1.ip = 0) :=
  ⟨step_runtime_error_frame, run_runtime_error_resets⟩

/-- Witness for `c8_runtime_error_effects`: negating the non-number
`true` raises a runtime error whose final state keeps `c8Vm`'s globals
and arena while the stack and instruction pointer are reset. -/
theorem c8_runtime_error_witness :
    (c8VmAfter.stack = [] ∧ c8VmAfter.ip = 0 ∧
      c8VmAfter.globals = c8Vm.globals ∧ c8VmAfter.objects = c8Vm.objects) ∧
    (c8VmAfter.stack = [] ∧ c8VmAfter.ip = 0) := by
  constructor
  · exact c8_runtime_error_effects.1 c8Chunk c8Vm c8VmAfter rfl
  · exact c8_runtime_error_effects.2 2 c8Chunk c8Vm .runtimeError c8VmAfter [] rfl rfl

/-- `Parser::error` always sets the error flag. -/
theorem Parser.error_had (p : Parser) (m : String) : (p.error m).had_error = true := rfl

/-- `emit_byte` does not touch the parser. -/
theorem emit_byte_parserEq (s : Compiler) (b : Op) : (s.emit_byte b).parser = s.parser := rfl

/-- `emit_bytes` does not touch the parser. -/
theorem emit_bytes_parserEq (s : Compiler) (b b2 : Op) :
    (s.emit_bytes b b2).parser = s.parser := rfl

/-- `emit_jump` does not touch the parser. -/
theorem emit_jump_parserEq (s : Compiler) (b : Op) :
    (s.emit_jump b).2.parser = s.parser := rfl

/-- `patch_jump` does not touch the parser. -/
theorem patch_jump_parserEq (s : Compiler) (offset : Nat) :
    (s.patch_jump offset).parser = s.parser := by
  unfold Compiler.patch_jump
  split <;> rfl

/-- `make_constant` does not touch the parser. -/
theorem make_constant_parserEq (s : Compiler) (v : Value) :
    (s.make_constant v).parser = s.parser := rfl

/-- `identifier_constant` does not touch the parser. -/
theorem identifier_constant_parserEq (s : Compiler) (n : String) :
    (s.identifier_constant n).2.parser = s.parser := rfl

/-- `begin_scope` does not touch the parser. -/
theorem begin_scope_parserEq (s : Compiler) : s.begin_scope.parser = s.parser := rfl

/-- `end_scope` does not touch the parser. -/
theorem end_scope_parserEq (s : Compiler) : s.end_scope.parser = s.parser := rfl

/-- `add_local` does not touch the parser. -/
theorem add_local_parserEq (s : Compiler) (n : String) :
    (s.add_local n).parser = s.parser := rfl

/-- `mark_initialized` does not touch the parser. -/
theorem mark_initialized_parserEq (s : Compiler) :
    s.mark_initialized.parser = s.parser := by
  unfold Compiler.mark_initialized
  split <;> rfl

/-- `define_variable` does not touch the parser. -/
theorem define_variable_parserEq (s : Compiler) (g : Nat) :
    (s.define_variable g).parser = s.parser := by
  unfold Compiler.define_variable
  split
  · exact mark_initialized_parserEq s
  · rfl

/-- `number` does not touch the parser. -/
theorem numberFn_parserEq (s : Compiler) : s.numberFn.parser = s.parser := rfl

/-- `string` does not touch the parser. -/
theorem stringFn_parserEq (s : Compiler) : s.stringFn.parser = s.parser := rfl

/-- `literal` does not touch the parser. -/
theorem literalFn_parserEq (s : Compiler) : s.literalFn.parser = s.parser := by
  unfold Compiler.literalFn
  split <;> rfl

/-- `end` does not touch the parser. -/
theorem endC_parserEq (s : Compiler) : s.endC.parser = s.parser := rfl

/-- The error-skipping loop of `advance` never clears the error flag. -/
theorem advanceLoop_mono : ∀ (fuel : Nat) (s : Compiler),
    s.parser.had_error = true → (Compiler.advanceLoop fuel s).parser.had_error = true := by
  intro fuel
  induction fuel with
  | zero => exact fun s h => h
  | succ f ih =>
    intro s h
    rcases hscan : s.scanner.scan_token with ⟨tok, sc⟩
    rw [Compiler.advanceLoop, hscan]
    dsimp only
    split
    · exact h
    · exact ih _ rfl

/-- `advance` never clears the error flag. -/
theorem advance_mono (s : Compiler) (h : s.parser.had_error = true) :
    s.advance.parser.had_error = true :=
  advanceLoop_mono _ _ h

/-- `consume` never clears the error flag. -/
theorem consume_mono (s : Compiler) (t : TokenType) (m : String)
    (h : s.parser.had_error = true) : (s.consume t m).parser.had_error = true := by
  unfold Compiler.consume
  split
  · exact advance_mono s h
  · rfl

/-- `check` never clears the error flag. -/
theorem checkAdv_mono (s : Compiler) (t : TokenType)
    (h : s.parser.had_error = true) : (s.checkAdv t).2.parser.had_error = true := by
  unfold Compiler.checkAdv
  split
  · exact advance_mono s h
  · exact h

/-- `resolve_local` never clears the error flag. -/
theorem resolve_local_mono (s : Compiler) (n : String)
    (h : s.parser.had_error = true) :
    (s.resolve_local n).2.parser.had_error = true := by
  unfold Compiler.resolve_local
  split
  · split
    · rfl
    · exact h
  · exact h

/-- Folding error reports over a message list never clears the flag. -/
theorem foldl_error_mono : ∀ (msgs : List String) (s : Compiler),
    s.parser.had_error = true →
    (msgs.foldl (fun st m => { st with parser := st.parser.error m }) s).parser.had_error
      = true := by
  intro msgs
  induction msgs with
  | nil => exact fun s h => h
  | cons m rest ih => exact fun s _ => ih _ rfl

/-- `declare_variable` never clears the error flag. -/
theorem declare_variable_mono (s : Compiler)
    (h : s.parser.had_error = true) :
    s.declare_variable.parser.had_error = true := by
  unfold Compiler.declare_variable
  split
  · exact h
  · dsimp only
    rw [add_local_parserEq]
    exact foldl_error_mono _ _ h

/-- `parse_variable` never clears the error flag. -/
theorem parse_variable_mono (s : Compiler) (m : String)
    (h : s.parser.had_error = true) :
    (s.parse_variable m).2.parser.had_error = true := by
  unfold Compiler.parse_variable
  dsimp only
  split
  · exact declare_variable_mono _ (consume_mono s _ _ h)
  · rw [identifier_constant_parserEq]
    exact declare_variable_mono _ (consume_mono s _ _ h)

/-- The synchronize loop never clears the error flag. -/
theorem syncLoop_mono : ∀ (fuel : Nat) (s : Compiler),
    s.parser.had_error = true → (Compiler.syncLoop fuel s).parser.had_error = true := by
  intro fuel
  induction fuel with
  | zero => exact fun s h => h
  | succ f ih =>
    intro s h
    rw [Compiler.syncLoop]
    split
    · split
      · exact h
      · split <;> first
          | exact h
          | exact ih _ (advance_mono s h)
    · exact h

/-- `synchronize` never clears the error flag (it only clears panic
mode). -/
theorem synchronize_mono (s : Compiler) (h : s.parser.had_error = true) :
    s.synchronize.parser.had_error = true :=
  syncLoop_mono _ _ h

set_option maxHeartbeats 1000000 in
/-- No function of the mutual parsing block ever clears a previously
recorded parse error. -/
theorem mutual_mono : ∀ fuel : Nat,
    (∀ s, s.parser.had_error = true →
      (Compiler.declaration fuel s).parser.had_error = true) ∧
    (∀ s, s.parser.had_error = true →
      (Compiler.statement fuel s).parser.had_error = true) ∧
    (∀ s, s.parser.had_error = true →
      (Compiler.var_declaration fuel s).parser.had_error = true) ∧
    (∀ s, s.parser.had_error = true →
      (Compiler.print_statement fuel s).parser.had_error = true) ∧
    (∀ s, s.parser.had_error = true →
      (Compiler.expression_statement fuel s).parser.had_error = true) ∧
    (∀ s, s.parser.had_error = true →
      (Compiler.if_statement fuel s).parser.had_error = true) ∧
    (∀ s, s.parser.had_error = true →
      (Compiler.block fuel s).parser.had_error = true) ∧
    (∀ s, s.parser.had_error = true →
      (Compiler.expression fuel s).parser.had_error = true) ∧
    (∀ p s, s.parser.had_error = true →
      (Compiler.parse_precedence fuel p s).parser.had_error = true) ∧
    (∀ p s, s.parser.had_error = true →
      (Compiler.infixLoop fuel p s).parser.had_error = true) ∧
    (∀ s, s.parser.had_error = true →
      (Compiler.binaryFn fuel s).parser.had_error = true) ∧
    (∀ s, s.parser.had_error = true →
      (Compiler.unaryFn fuel s).parser.had_error = true) ∧
    (∀ s, s.parser.had_error = true →
      (Compiler.grouping fuel s).parser.had_error = true) ∧
    (∀ n b s, s.parser.had_error = true →
      (Compiler.named_variable fuel n b s).parser.had_error = true) ∧
    (∀ b s, s.parser.had_error = true →
      (Compiler.variableFn fuel b s).parser.had_error = true) := by
  intro fuel
  induction fuel with
  | zero =>
    exact ⟨fun _ h => h, fun _ h => h, fun _ h => h, fun _ h => h, fun _ h => h,
      fun _ h => h, fun _ h => h, fun _ h => h, fun _ _ h => h, fun _ _ h => h,
      fun _ h => h, fun _ h => h, fun _ h => h, fun _ _ _ h => h, fun _ _ h => h⟩
  | succ f ih =>
    obtain ⟨ihDecl, ihStmt, ihVarD, ihPrint, ihExprSt, ihIf, ihBlock, ihExpr,
      ihPP, ihInfix, ihBin, ihUn, ihGroup, ihNamed, ihVarFn⟩ := ih
    refine ⟨?_, ?_, ?_, ?_, ?_, ?_, ?_, ?_, ?_, ?_, ?_, ?_, ?_, ?_, ?_⟩
    · -- declaration
      intro s h
      rw [Compiler.declaration]
      rcases hc : s.checkAdv .kVar with ⟨isVar, s1⟩
      try dsimp only
      have h1 : s1.parser.had_error = true := by
        have t := checkAdv_mono s .kVar h
        rw [hc] at t
        exact t
      split <;> split <;>
        first
          | exact synchronize_mono _ (ihVarD s1 h1)
          | exact ihVarD s1 h1
          | exact synchronize_mono _ (ihStmt s1 h1)
          | exact ihStmt s1 h1
    · -- statement
      intro s h
      rw [Compiler.statement]
      rcases hc1 : s.checkAdv .kPrint with ⟨isPrint, s1⟩
      try dsimp only
      have h1 : s1.parser.had_error = true := by
        have t := checkAdv_mono s .kPrint h
        rw [hc1] at t
        exact t
      split
      · exact ihPrint s1 h1
      · rcases hc2 : s1.checkAdv .leftBrace with ⟨isBrace, s2⟩
        try dsimp only
        have h2 : s2.parser.had_error = true := by
          have t := checkAdv_mono s1 .leftBrace h1
          rw [hc2] at t
          exact t
        split
        · rw [end_scope_parserEq]
          exact ihBlock _ h2
        · rcases hc3 : s2.checkAdv .kIf with ⟨isIf, s3⟩
          try dsimp only
          have h3 : s3.parser.had_error = true := by
            have t := checkAdv_mono s2 .kIf h2
            rw [hc3] at t
            exact t
          split
          · exact ihIf s3 h3
          · exact ihExprSt s3 h3
    · -- var_declaration
      intro s h
      rw [Compiler.var_declaration]
      rcases hp : s.parse_variable "Expect variable name." with ⟨global, s1⟩
      try dsimp only
      have h1 : s1.parser.had_error = true := by
        have t := parse_variable_mono s "Expect variable name." h
        rw [hp] at t
        exact t
      rcases hc : s1.checkAdv .equal with ⟨isEq, s2⟩
      try dsimp only
      have h2 : s2.parser.had_error = true := by
        have t := checkAdv_mono s1 .equal h1
        rw [hc] at t
        exact t
      rw [define_variable_parserEq]
      split
      · exact consume_mono _ _ _ (ihExpr s2 h2)
      · exact consume_mono _ _ _ (by rw [emit_byte_parserEq]; exact h2)
    · -- print_statement
      intro s h
      rw [Compiler.print_statement]
      try dsimp only
      rw [emit_byte_parserEq]
      exact consume_mono _ _ _ (ihExpr s h)
    · -- expression_statement
      intro s h
      rw [Compiler.expression_statement]
      try dsimp only
      rw [emit_byte_parserEq]
      exact consume_mono _ _ _ (ihExpr s h)
    · -- if_statement
      intro s h
      rw [Compiler.if_statement]
      try dsimp only
      have h3 : (((s.consume .leftParen "Expect '(' after 'if'.").expression f
          ).consume .rightParen "Expect ')' after condition.").parser.had_error = true :=
        consume_mono _ _ _ (ihExpr _ (consume_mono _ _ _ h))
      rcases he1 : (((s.consume .leftParen "Expect '(' after 'if'.").expression f
          ).consume .rightParen "Expect ')' after condition.").emit_jump (.jumpIfFalse 0)
          with ⟨thenJump, s4⟩
      try dsimp only
      have h4 : s4.parser.had_error = true := by
        have t := emit_jump_parserEq (((s.consume .leftParen
          "Expect '(' after 'if'.").expression f).consume .rightParen
          "Expect ')' after condition.") (.jumpIfFalse 0)
        rw [he1] at t
        rw [t]
        exact h3
      have h6 : ((s4.emit_byte .pop).statement f).parser.had_error = true := by
        apply ihStmt
        rw [emit_byte_parserEq]
        exact h4
      rcases he2 : ((s4.emit_byte .pop).statement f).emit_jump (.jump 0)
          with ⟨elseJump, s7⟩
      try dsimp only
      have h7 : s7.parser.had_error = true := by
        have t := emit_jump_parserEq ((s4.emit_byte .pop).statement f) (.jump 0)
        rw [he2] at t
        rw [t]
        exact h6
      have h9 : (((s7.patch_jump thenJump).emit_byte .pop)).parser.had_error = true := by
        rw [emit_byte_parserEq, patch_jump_parserEq]
        exact h7
      rcases hc : ((s7.patch_jump thenJump).emit_byte .pop).checkAdv .kElse
          with ⟨isElse, s10⟩
      try dsimp only
      have h10 : s10.parser.had_error = true := by
        have t := checkAdv_mono ((s7.patch_jump thenJump).emit_byte .pop) .kElse h9
        rw [hc] at t
        exact t
      rw [patch_jump_parserEq]
      split
      · exact ihStmt s10 h10
      · exact h10
    · -- block
      intro s h
      rw [Compiler.block]
      split
      · exact ihBlock _ (ihDecl _ h)
      · exact consume_mono _ _ _ h
    · -- expression
      intro s h
      rw [Compiler.expression]
      exact ihPP _ _ h
    · -- parse_precedence
      intro p s h
      rw [Compiler.parse_precedence]
      try dsimp only
      have h0 : s.advance.parser.had_error = true := advance_mono s h
      have hPre : ∀ s2 : Compiler, s2.parser.had_error = true →
          (Compiler.infixLoop f p s2).parser.had_error = true := fun s2 h2 =>
        ihInfix p s2 h2
      have hTail : ∀ s2 : Compiler, s2.parser.had_error = true →
          (if p.le .assignment = true then
            if (s2.checkAdv .equal).1 = true then
              { (s2.checkAdv .equal).2 with
                  parser := (s2.checkAdv .equal).2.parser.error
                    "Invalid assignment target." }
            else (s2.checkAdv .equal).2
          else s2).parser.had_error = true := by
        intro s2 h2
        split
        · split
          · exact rfl
          · exact checkAdv_mono s2 .equal h2
        · exact h2
      rcases hg : (getRule s.advance.parser.previous.typ).preRule
          with _ | _ | _ | _ | _ | _ | _ | _ <;> try dsimp only
      · exact hTail _ (hPre _ (ihGroup _ h0))
      · exact hTail _ (hPre _ (ihUn _ h0))
      · exact hTail _ (hPre _ h0)
      · exact hTail _ (hPre _ (by rw [numberFn_parserEq]; exact h0))
      · exact hTail _ (hPre _ (by rw [stringFn_parserEq]; exact h0))
      · exact hTail _ (hPre _ (by rw [literalFn_parserEq]; exact h0))
      · exact hTail _ (hPre _ (ihVarFn _ _ h0))
      · exact rfl
    · -- infixLoop
      intro p s h
      rw [Compiler.infixLoop]
      split
      · try dsimp only
        rcases hg : (getRule s.advance.parser.previous.typ).infRule
            with _ | _ | _ | _ | _ | _ | _ | _ <;> try dsimp only
        · exact ihInfix p _ (advance_mono s h)
        · exact ihInfix p _ (advance_mono s h)
        · exact ihInfix p _ (ihBin _ (advance_mono s h))
        · exact ihInfix p _ (advance_mono s h)
        · exact ihInfix p _ (advance_mono s h)
        · exact ihInfix p _ (advance_mono s h)
        · exact ihInfix p _ (advance_mono s h)
        · exact ihInfix p _ (advance_mono s h)
      · exact h
    · -- binaryFn
      intro s h
      rw [Compiler.binaryFn]
      try dsimp only
      have h1 : (Compiler.parse_precedence f
          (getRule s.parser.previous.typ).precedence.next s).parser.had_error = true :=
        ihPP _ s h
      split <;>
        first
          | (rw [emit_byte_parserEq]; exact h1)
          | (rw [emit_bytes_parserEq]; exact h1)
          | exact h1
    · -- unaryFn
      intro s h
      rw [Compiler.unaryFn]
      try dsimp only
      have h1 : (Compiler.parse_precedence f .unary s).parser.had_error = true :=
        ihPP _ s h
      split <;>
        first
          | (rw [emit_byte_parserEq]; exact h1)
          | exact h1
    · -- grouping
      intro s h
      rw [Compiler.grouping]
      exact consume_mono _ _ _ (ihExpr _ h)
    · -- named_variable
      intro n b s h
      rw [Compiler.named_variable]
      rcases hr : s.resolve_local n with ⟨arg, s1⟩
      try dsimp only
      have h1 : s1.parser.had_error = true := by
        have t := resolve_local_mono s n h
        rw [hr] at t
        exact t
      have hTail : ∀ (gOp sOp : Op) (s2 : Compiler), s2.parser.had_error = true →
          (if b = true then
            if (s2.checkAdv .equal).1 = true then
              (Compiler.expression f (s2.checkAdv .equal).2).emit_byte sOp
            else (s2.checkAdv .equal).2.emit_byte gOp
          else s2.emit_byte gOp).parser.had_error = true := by
        intro gOp sOp s2 h2
        split
        · split
          · rw [emit_byte_parserEq]
            exact ihExpr _ (checkAdv_mono s2 .equal h2)
          · rw [emit_byte_parserEq]
            exact checkAdv_mono s2 .equal h2
        · rw [emit_byte_parserEq]
          exact h2
      rcases arg with _ | a
      · dsimp only
        rcases hic : s1.identifier_constant n with ⟨idx, s2⟩
        try dsimp only
        have h2 : s2.parser.had_error = true := by
          have t := identifier_constant_parserEq s1 n
          rw [hic] at t
          rw [t]
          exact h1
        exact hTail _ _ _ h2
      · dsimp only
        exact hTail _ _ _ h1
    · -- variableFn
      intro b s h
      rw [Compiler.variableFn]
      exact ihNamed _ _ _ h

/-- The top-level declaration loop of `compile` never clears the error
flag. -/
theorem compileLoop_mono : ∀ (fuel : Nat) (s : Compiler),
    s.parser.had_error = true →
    (Compiler.compileLoop fuel s).parser.had_error = true := by
  intro fuel
  induction fuel with
  | zero => exact fun s h => h
  | succ f ih =>
    intro s h
    rw [Compiler.compileLoop]
    rcases hc : s.checkAdv .eof with ⟨isEof, s1⟩
    try dsimp only
    have h1 : s1.parser.had_error = true := by
      have t := checkAdv_mono s .eof h
      rw [hc] at t
      exact t
    split
    · exact ih _ ((mutual_mono f).1 _ h1)
    · exact h1

/-- C7: a parse error recorded at any point survives every later phase —
`declaration` (and with it the whole mutual parsing block, by
`mutual_mono`), `synchronize` (panic-mode recovery clears only the panic
flag), and the top-level declaration loop — so `compile` returns failure
whenever its final state carries the flag, and on a failed compile the
interpreter reports `CompileError` with no bytecode executed and no
output. -/
theorem c7_parse_error_fails :
    (∀ (fuel : Nat) (s : Compiler), s.parser.had_error = true →
      (Compiler.declaration fuel s).parser.had_error = true) ∧
    (∀ s : Compiler, s.parser.had_error = true →
      s.synchronize.parser.had_error = true) ∧
    (∀ (fuel : Nat) (s : Compiler), s.parser.had_error = true →
      (Compiler.compileLoop fuel s).parser.had_error = true) ∧
    (∀ fuel src objects,
      (Compiler.compileFinal fuel src objects).parser.had_error = true →
      Compiler.compile fuel src objects = .error ()) ∧
    (∀ cfuel rfuel src vm,
      Compiler.compile cfuel src vm.objects = .error () →
      Vm.interpret cfuel rfuel src vm =
        some (.compileError,
          { vm with objects := (Compiler.compileFinal cfuel src vm.objects).objects },
          [])) := by
  refine ⟨fun fuel => (mutual_mono fuel).1, synchronize_mono, compileLoop_mono, ?_, ?_⟩
  · intro fuel src objects h
    simp [Compiler.compile, h]
  · intro cfuel rfuel src vm hc
    have herr : (Compiler.compileFinal cfuel src vm.objects).parser.had_error = true := by
      by_contra hne
      simp only [Compiler.compile, Bool.not_eq_true] at hc hne
      rw [if_neg (by simp [hne])] at hc
      cases hc
    simp only [Vm.interpret, herr, if_true]

/-- Witness for `c7_parse_error_fails`: an errored state survives a
concrete `declaration` call, and the malformed source `"var x = ;"`
(whose initializer is missing a prefix expression) makes `compile` fail
and makes the interpreter report `CompileError` with no output. -/
theorem c7_parse_error_fails_witness :
    (Compiler.declaration 5 c7ErrState).parser.had_error = true ∧
    Compiler.compile 100 "var x = ;" Arena.new = .error () ∧
    Vm.interpret 100 100 "var x = ;" Vm.new =
      some (.compileError,
        { Vm.new with
            objects := (Compiler.compileFinal 100 "var x = ;" Vm.new.objects).objects },
        []) := by
  refine ⟨c7_parse_error_fails.1 5 c7ErrState rfl, ?_, ?_⟩
  · exact c7_parse_error_fails.2.2.2.1 100 "var x = ;" Arena.new (by decide)
  · exact c7_parse_error_fails.2.2.2.2 100 100 "var x = ;" Vm.new
      (c7_parse_error_fails.2.2.2.1 100 "var x = ;" Vm.new.objects (by decide))
